import Mathlib

/-!
Shallow embedding of the MSSQL and Oracle dialect modules of a
geospatial SQL-generation library, together with theorems checking the
repository specification against the code.

Modelling conventions:
* A SQLAlchemy function element is a record holding its `identifier`
  string, its list of clause children and the geometry type (its SRID).
* The host ORM compiler is abstract: `Compiler.processClause` models
  `compiler.process` applied to a single clause, and
  `Compiler.processList` models `compiler.process` applied to a
  `ClauseList` built from the given clauses.
* Python in-place mutation of the element is modelled by returning the
  updated element next to the produced SQL string.
* Python indexing errors (empty clause lists) are modelled by `Option`.
* Database effects are modelled by returning the list of executed SQL
  statements; a fetch is modelled by a function from the statement to
  the first column of the fetched row (`none` when no row is returned).
-/

/-- Python values carried by bind-parameter clauses.  `memview` models a
`memoryview` over the given bytes, `pybytes` a `bytes` object, `pystr` a
`str`, `pyint` an `int` and `pynone` is `None`. -/
inductive Value where
  | memview (bs : List Nat)
  | pybytes (bs : List Nat)
  | pystr (s : String)
  | pyint (n : Int)
  | pynone
deriving DecidableEq

/-- Lower-case hexadecimal digit for `n < 16`. -/
def hexDigit (n : Nat) : Char :=
  if n < 10 then Char.ofNat (48 + n) else Char.ofNat (87 + n)

/-- Python `bytes.hex()`: two lower-case hexadecimal digits per byte. -/
def bytesHex (bs : List Nat) : String :=
  String.mk ((bs.map (fun b => [hexDigit (b / 16 % 16), hexDigit (b % 16)])).flatten)

/-- Python `str()` as used by f-string interpolation.  Integers and
strings are rendered exactly; the renderings of `bytes` (whose `repr`
escapes non-printable bytes) and `memoryview` (whose `str` contains a
memory address) are abstracted, no theorem depends on those branches. -/
def pyStr : Value → String
  | Value.memview _ => "<memory>"
  | Value.pybytes bs => "b" ++ "'" ++ String.mk (bs.map Char.ofNat) ++ "'"
  | Value.pystr s => s
  | Value.pyint n => toString n
  | Value.pynone => "None"

/-- A clause child of a function element; `value` models the `.value`
attribute of a bind-parameter clause (`pynone` for non-parameters). -/
structure Clause where
  value : Value
deriving DecidableEq

/-- The geometry type attached to a function element (`element.type`). -/
structure GeomType where
  srid : Int
deriving DecidableEq

/-- A SQLAlchemy function element, reduced to the attributes the dialect
modules read and write: `identifier`, `clauses` and `type`. -/
structure FunctionElement where
  identifier : String
  clauses : List Clause
  type : GeomType
deriving DecidableEq

/-- The host ORM SQL compiler, kept abstract.  `processClause` is
`compiler.process` on one clause; `processList` is `compiler.process` on
a `ClauseList` made of the given clauses. -/
structure Compiler where
  processClause : Clause → String
  processList : List Clause → String

/-- A table, reduced to the attributes the dialect modules read. -/
structure Table where
  schema : String
  name : String
deriving DecidableEq

/-- The type stored under the key `type` of a reflected column:
either a `Geometry` instance carrying its SRID, or any other type. -/
inductive ColType where
  | geometry (srid : Int)
  | other
deriving DecidableEq

/-- The `column_info` dictionary, reduced to the keys the dialect
modules read and write (`type` may be absent). -/
structure ColumnInfo where
  type : Option ColType
  name : String
deriving DecidableEq

/-- The reflection inspector: `fetchone stmt` is the first column of the
first row returned by executing `stmt`, or `none` when no row exists. -/
structure Inspector where
  fetchone : String → Option Int

namespace MssqlDialect

/-- `create_spatial_index(bind, table, col)`: the body is `pass`, so the
arguments come back unchanged, no SQL is executed and `None` returns. -/
def create_spatial_index {β γ : Type} (bind : β) (table : Table) (col : γ) :
    (β × Table × γ) × List String × Option Unit :=
  ((bind, table, col), [], none)

/-- `before_create(table, bind, **kw)`: body is `pass`. -/
def before_create {β : Type} (table : Table) (bind : β) :
    (Table × β) × List String × Option Unit :=
  ((table, bind), [], none)

/-- `after_create(table, bind, **kw)`: body is `pass`. -/
def after_create {β : Type} (table : Table) (bind : β) :
    (Table × β) × List String × Option Unit :=
  ((table, bind), [], none)

/-- `before_drop(table, bind, **kw)`: body is `pass`. -/
def before_drop {β : Type} (table : Table) (bind : β) :
    (Table × β) × List String × Option Unit :=
  ((table, bind), [], none)

/-- `after_drop(table, bind, **kw)`: body is `pass`. -/
def after_drop {β : Type} (table : Table) (bind : β) :
    (Table × β) × List String × Option Unit :=
  ((table, bind), [], none)

/-- The SELECT statement built by `reflect_geometry_column` (mssql). -/
def srid_select (table : Table) (ci : ColumnInfo) : String :=
  "SELECT TOP(1) " ++ ci.name ++ ".STSrid from " ++ table.schema ++ "." ++ table.name

/-- `reflect_geometry_column(inspector, table, column_info)` for MSSQL:
returns the (possibly updated) `column_info`, the list of executed SQL
statements, and the Python return value (always `None`). -/
def reflect_geometry_column (inspector : Inspector) (table : Table)
    (ci : ColumnInfo) : ColumnInfo × List String × Option Unit :=
  match ci.type with
  | some (ColType.geometry srid) =>
    if srid = -1 then
      let statement := srid_select table ci
      match inspector.fetchone statement with
      | some v => ({ ci with type := some (ColType.geometry v) }, [statement], none)
      | none => (ci, [statement], none)
    else (ci, [], none)
  | _ => (ci, [], none)

/-- `_fix_GIS_schema_issue(clause)`: split on the dot, drop the first
chunk when there are more than two, and join back with dots. -/
def _fix_GIS_schema_issue (clause : String) : String :=
  let chunks := clause.data.splitOn '.'
  let chunks := if chunks.length > 2 then chunks.tail else chunks
  String.mk (List.intercalate ['.'] chunks)

/-- `wkb_data.tobytes()` replacement performed by `STGeomFromWKB` on the
first clause when its value is a `memoryview`. -/
def tobytes_clause (c : Clause) : Clause :=
  match c.value with
  | Value.memview bs => { c with value := Value.pybytes bs }
  | _ => c

/-- `STGeomFromWKB(element, compiler, **kw)` for MSSQL.  Sets the
identifier, converts a leading `memoryview` value to `bytes` in place,
compiles the clauses, and appends the SRID argument when positive.
`none` models the `IndexError` raised on an empty clause list. -/
def STGeomFromWKB (element : FunctionElement) (compiler : Compiler) :
    Option (FunctionElement × String) :=
  let element := { element with identifier := "geometry::STGeomFromWKB" }
  match element.clauses with
  | [] => none
  | c :: rest =>
    let c := tobytes_clause c
    let element := { element with clauses := c :: rest }
    let compiled := compiler.processList element.clauses
    let srid := element.type.srid
    if srid > 0 then
      some (element, element.identifier ++ "(" ++ compiled ++ ", " ++ toString srid ++ ")")
    else
      some (element, element.identifier ++ "(" ++ compiled ++ ")")

/-- `STWithin(element, compiler, **kw)` for MSSQL. -/
def STWithin (element : FunctionElement) (compiler : Compiler) : Option String :=
  match element.clauses with
  | [] => none
  | obj :: rest =>
    let compiled_obj := _fix_GIS_schema_issue (compiler.processClause obj)
    let compiled_clauses := compiler.processList rest
    some (compiled_obj ++ ".STWithin(" ++ compiled_clauses ++ ")=1")

/-- `STDWithin(element, compiler, **kw)` for MSSQL: the last clause's
raw value is interpolated directly as the distance threshold, and the
clauses strictly between the first and the last are compiled. -/
def STDWithin (element : FunctionElement) (compiler : Compiler) : Option String :=
  match element.clauses with
  | [] => none
  | obj :: rest =>
    let compiled_obj := _fix_GIS_schema_issue (compiler.processClause obj)
    let d := pyStr (((obj :: rest).getLast (List.cons_ne_nil obj rest)).value)
    let mid := rest.dropLast
    some (compiled_obj ++ ".STDistance(" ++ compiler.processList mid ++ ") <= " ++ d)

end MssqlDialect

/-- `s` starts with `sub` (character lists), as in `str.startswith`. -/
def beginsWith : List Char → List Char → Bool
  | _, [] => true
  | [], _ :: _ => false
  | a :: s, b :: t => a == b && beginsWith s t

/-- Python `s.find(sub)`: index of the first occurrence of `sub` inside
`s`, or `-1` when `sub` does not occur. -/
def pyFind : List Char → List Char → Int
  | [], sub => if beginsWith [] sub then 0 else -1
  | a :: t, sub =>
    if beginsWith (a :: t) sub then 0
    else
      let r := pyFind t sub
      if r = -1 then -1 else r + 1

namespace OracleDialect

/-- `load_oracle_spatial_driver(dbapi_conn)`, parameterised by the
banner string the version query returns (the first column of the row
fetched by `SELECT banner FROM v$version WHERE banner LIKE 'Oracle%'`).
Raising `RuntimeError` is modelled by `Except.error` with the message. -/
def load_oracle_spatial_driver (banner : String) : Except String Unit :=
  if pyFind banner.data "Express".data ≠ -1 then
    Except.error "The Express edition of the Oracle database is not supported."
  else
    Except.ok ()

/-- `init_oracle_spatial(dbapi_conn)`: body is `pass`, returns `None`. -/
def init_oracle_spatial {α : Type} (_dbapi_conn : α) : Option Unit :=
  none

/-- `load_oracle_spatial(*args, **kwargs)`: runs the driver check and
then the (no-op) table initialisation. -/
def load_oracle_spatial (banner : String) : Except String (Option Unit) :=
  match load_oracle_spatial_driver banner with
  | Except.error e => Except.error e
  | Except.ok _ => Except.ok (init_oracle_spatial banner)

/-- `create_spatial_index(bind, table, col)`: body is `pass`. -/
def create_spatial_index {β γ : Type} (bind : β) (table : Table) (col : γ) :
    (β × Table × γ) × List String × Option Unit :=
  ((bind, table, col), [], none)

/-- `before_create(table, bind, **kw)`: body is `pass`. -/
def before_create {β : Type} (table : Table) (bind : β) :
    (Table × β) × List String × Option Unit :=
  ((table, bind), [], none)

/-- `after_create(table, bind, **kw)`: body is `pass`. -/
def after_create {β : Type} (table : Table) (bind : β) :
    (Table × β) × List String × Option Unit :=
  ((table, bind), [], none)

/-- `before_drop(table, bind, **kw)`: body is `pass`. -/
def before_drop {β : Type} (table : Table) (bind : β) :
    (Table × β) × List String × Option Unit :=
  ((table, bind), [], none)

/-- `after_drop(table, bind, **kw)`: body is `pass`. -/
def after_drop {β : Type} (table : Table) (bind : β) :
    (Table × β) × List String × Option Unit :=
  ((table, bind), [], none)

/-- The SELECT statement built by `reflect_geometry_column` (oracle).
`String.toUpper` models Python `str.upper()`. -/
def srid_select (table : Table) (ci : ColumnInfo) : String :=
  "SELECT SDO_SRID FROM MDSYS.SDO_GEOM_METADATA_TABLE " ++
    "WHERE SDO_TABLE_NAME='" ++ table.schema ++ "." ++ table.name.toUpper ++ "' " ++
    "AND SDO_COLUMN_NAME='" ++ ci.name.toUpper ++ "'"

/-- `reflect_geometry_column(inspector, table, column_info)` for Oracle:
returns the (possibly updated) `column_info`, the executed SQL
statements, and the Python return value (always `None`). -/
def reflect_geometry_column (inspector : Inspector) (table : Table)
    (ci : ColumnInfo) : ColumnInfo × List String × Option Unit :=
  match ci.type with
  | some (ColType.geometry srid) =>
    if srid = -1 then
      let statement := srid_select table ci
      match inspector.fetchone statement with
      | some v => ({ ci with type := some (ColType.geometry v) }, [statement], none)
      | none => (ci, [statement], none)
    else (ci, [], none)
  | _ => (ci, [], none)

/-- `_ORACLE_FUNCTIONS`: the default mapping from abstract function
names to Oracle function names. -/
def _ORACLE_FUNCTIONS : List (String × String) :=
  [("ST_AsBinary", "SDO_UTIL.TO_WKBGEOMETRY"),
   ("ST_AsEWKB", "SDO_UTIL.TO_WKBGEOMETRY"),
   ("ST_AsGeoJSON", "SDO_UTIL.TO_GEOJSON")]

/-- `_compiles_oracle(cls, fn)`: registers, under the name `cls`, the
compilation function producing `fn(<compiled clauses>)`. -/
def _compiles_oracle (cls : String) (fn : String) :
    String × (FunctionElement → Compiler → String) :=
  (cls, fun element compiler => fn ++ "(" ++ compiler.processList element.clauses ++ ")")

/-- `register_oracle_mapping(mapping)`: the registry of compilation
functions produced by registering every entry of the mapping. -/
def register_oracle_mapping (mapping : List (String × String)) :
    List (String × (FunctionElement → Compiler → String)) :=
  mapping.map fun p => _compiles_oracle p.1 p.2

/-- The module-level call `register_oracle_mapping(_ORACLE_FUNCTIONS)`. -/
def oracle_compilation_registry : List (String × (FunctionElement → Compiler → String)) :=
  register_oracle_mapping _ORACLE_FUNCTIONS

/-- `_compile_ST_Within_Oracle(element, compiler, **kw)`: sets the
identifier and wraps the compiled clauses. -/
def _compile_ST_Within_Oracle (element : FunctionElement) (compiler : Compiler) :
    FunctionElement × String :=
  let element := { element with identifier := "SDO_INSIDE" }
  (element, element.identifier ++ "(" ++ compiler.processList element.clauses ++ ") = 'TRUE'")

/-- `wkb_data.tobytes().hex()` replacement performed by
`_compile_GeomFromWKB_Oracle` on the first clause when its value is a
`memoryview`. -/
def tohex_clause (c : Clause) : Clause :=
  match c.value with
  | Value.memview bs => { c with value := Value.pystr (bytesHex bs) }
  | _ => c

/-- `_compile_GeomFromWKB_Oracle(element, compiler, **kw)`: sets the
identifier, converts a leading `memoryview` value to its hexadecimal
string in place, compiles the clauses, wraps the first comma-separated
piece in `TO_BLOB`, and appends the SRID argument when positive.
`none` models the `IndexError` raised on an empty clause list. -/
def _compile_GeomFromWKB_Oracle (element : FunctionElement) (compiler : Compiler) :
    Option (FunctionElement × String) :=
  let element := { element with identifier := "SDO_GEOMETRY" }
  match element.clauses with
  | [] => none
  | c :: rest =>
    let c := tohex_clause c
    let element := { element with clauses := c :: rest }
    let compiled := compiler.processList element.clauses
    let compiled_list := compiled.splitOn ","
    let compiled_list :=
      match compiled_list with
      | [] => []
      | x :: xs => ("TO_BLOB(" ++ x ++ ")") :: xs
    let compiled := String.intercalate "," compiled_list
    let srid := element.type.srid
    if srid > 0 then
      some (element, element.identifier ++ "(" ++ compiled ++ ", " ++ toString srid ++ ")")
    else
      some (element, element.identifier ++ "(" ++ compiled ++ ")")

end OracleDialect

/-- `_fix_GIS_schema_issue` described extensionally: identity when at
most two dot-separated chunks, otherwise the dot-join of the tail. -/
theorem fix_schema_spec (s : String) :
    MssqlDialect._fix_GIS_schema_issue s =
      if (s.data.splitOn '.').length > 2 then
        String.mk (List.intercalate ['.'] (s.data.splitOn '.').tail)
      else s := by
  unfold MssqlDialect._fix_GIS_schema_issue
  by_cases h : (s.data.splitOn '.').length > 2
  · simp [h]
  · simp [h, List.intercalate_splitOn]

/-- Dot-joining a cons with a nonempty tail peels off the head chunk
followed by one separator. -/
theorem intercalate_cons_ne_nil {α : Type} (x : α) (c : List α)
    {tl : List (List α)} (h : tl ≠ []) :
    List.intercalate [x] (c :: tl) = c ++ x :: List.intercalate [x] tl := by
  cases tl with
  | nil => exact absurd rfl h
  | cons d ts => simp [List.intercalate, List.intersperse]

/-- C1: compiling `ST_Within` under the mssql dialect yields
`<obj>.STWithin(<args>)=1` where `<obj>` is the compiled first clause
with its leading dot-separated schema component removed when the
compiled text has more than two dot-separated parts, and `<args>` is the
compilation of all remaining clauses. -/
theorem C1_mssql_st_within (ident : String) (t : GeomType) (obj : Clause)
    (rest : List Clause) (compiler : Compiler) :
    MssqlDialect.STWithin ⟨ident, obj :: rest, t⟩ compiler =
      some ((if ((compiler.processClause obj).data.splitOn '.').length > 2 then
               String.mk (List.intercalate ['.']
                 ((compiler.processClause obj).data.splitOn '.').tail)
             else compiler.processClause obj) ++
            ".STWithin(" ++ compiler.processList rest ++ ")=1") := by
  simp only [MssqlDialect.STWithin, fix_schema_spec]

/-- C2: compiling `ST_DWithin` under the mssql dialect, with first
clause `obj`, middle clauses `mid` and last clause `dcl`, yields
`<obj>.STDistance(<middle>) <= <d>` where `<obj>` is the compiled
schema-stripped first clause, `<middle>` is the compilation of the
clauses strictly between the first and the last, and `<d>` is the raw
value of the last clause interpolated directly. -/
theorem C2_mssql_st_dwithin (ident : String) (t : GeomType) (obj dcl : Clause)
    (mid : List Clause) (compiler : Compiler) :
    MssqlDialect.STDWithin ⟨ident, obj :: (mid ++ [dcl]), t⟩ compiler =
      some ((if ((compiler.processClause obj).data.splitOn '.').length > 2 then
               String.mk (List.intercalate ['.']
                 ((compiler.processClause obj).data.splitOn '.').tail)
             else compiler.processClause obj) ++
            ".STDistance(" ++ compiler.processList mid ++ ") <= " ++
            pyStr dcl.value) := by
  simp only [MssqlDialect.STDWithin, fix_schema_spec]
  rw [show ((obj :: (mid ++ [dcl])).getLast
        (List.cons_ne_nil obj (mid ++ [dcl]))) = dcl from
      List.getLast_concat (obj :: mid), List.dropLast_concat]

/-- C3: compiling `ST_GeomFromWKB`/`ST_GeomFromEWKB` under the mssql
dialect yields `geometry::STGeomFromWKB(<compiled clauses>, <srid>)`
when the element's SRID is positive and
`geometry::STGeomFromWKB(<compiled clauses>)` otherwise, where the
compiled clauses are those of the element after its in-place
`memoryview` conversion. -/
theorem C3_mssql_st_geomfromwkb (ident : String) (srid : Int) (c : Clause)
    (rest : List Clause) (compiler : Compiler) :
    MssqlDialect.STGeomFromWKB ⟨ident, c :: rest, ⟨srid⟩⟩ compiler =
      some (⟨"geometry::STGeomFromWKB", MssqlDialect.tobytes_clause c :: rest, ⟨srid⟩⟩,
            if srid > 0 then
              "geometry::STGeomFromWKB(" ++
                compiler.processList (MssqlDialect.tobytes_clause c :: rest) ++
                ", " ++ toString srid ++ ")"
            else
              "geometry::STGeomFromWKB(" ++
                compiler.processList (MssqlDialect.tobytes_clause c :: rest) ++ ")") := by
  simp only [MssqlDialect.STGeomFromWKB]
  split <;> rfl

/-- C4: compiling `ST_Within` under the oracle dialect sets the
element's identifier to `SDO_INSIDE` and returns
`SDO_INSIDE(<compiled clauses>) = 'TRUE'`. -/
theorem C4_oracle_st_within (ident : String) (cs : List Clause) (t : GeomType)
    (compiler : Compiler) :
    OracleDialect._compile_ST_Within_Oracle ⟨ident, cs, t⟩ compiler =
      (⟨"SDO_INSIDE", cs, t⟩,
       "SDO_INSIDE(" ++ compiler.processList cs ++ ") = 'TRUE'") := rfl

/-- C6: the lifecycle hooks of both dialect modules return `None`,
execute no SQL and leave all of their arguments unchanged. -/
theorem C6_lifecycle_hooks_noop {β γ : Type} (table : Table) (bind : β) (col : γ) :
    MssqlDialect.create_spatial_index bind table col = ((bind, table, col), [], none) ∧
    MssqlDialect.before_create table bind = ((table, bind), [], none) ∧
    MssqlDialect.after_create table bind = ((table, bind), [], none) ∧
    MssqlDialect.before_drop table bind = ((table, bind), [], none) ∧
    MssqlDialect.after_drop table bind = ((table, bind), [], none) ∧
    OracleDialect.create_spatial_index bind table col = ((bind, table, col), [], none) ∧
    OracleDialect.before_create table bind = ((table, bind), [], none) ∧
    OracleDialect.after_create table bind = ((table, bind), [], none) ∧
    OracleDialect.before_drop table bind = ((table, bind), [], none) ∧
    OracleDialect.after_drop table bind = ((table, bind), [], none) :=
  ⟨rfl, rfl, rfl, rfl, rfl, rfl, rfl, rfl, rfl, rfl⟩

/-- C8: `_fix_GIS_schema_issue` is the identity on strings with at most
two dot-separated chunks; on more chunks it removes exactly the first
chunk and the following dot; `a.b.c.d` maps to `b.c.d`, which still has
more than two chunks, so the function is not idempotent there. -/
theorem C8_fix_gis_schema (s : String) :
    (((s.data.splitOn '.').length ≤ 2 → MssqlDialect._fix_GIS_schema_issue s = s) ∧
     ((s.data.splitOn '.').length > 2 →
        s.data = (s.data.splitOn '.').headI ++
          '.' :: (MssqlDialect._fix_GIS_schema_issue s).data)) ∧
    MssqlDialect._fix_GIS_schema_issue "a.b.c.d" = "b.c.d" ∧
    (("b.c.d".data.splitOn '.').length > 2 ∧
     MssqlDialect._fix_GIS_schema_issue (MssqlDialect._fix_GIS_schema_issue "a.b.c.d") ≠
       MssqlDialect._fix_GIS_schema_issue "a.b.c.d") := by
  refine ⟨⟨?_, ?_⟩, by decide, by decide, by decide⟩
  · intro h
    rw [fix_schema_spec, if_neg (by omega)]
  · intro h
    rcases hc : s.data.splitOn '.' with _ | ⟨c0, tl⟩
    · rw [hc] at h
      simp at h
    · have htl : tl ≠ [] := by
        rw [hc] at h
        simp only [List.length_cons] at h
        intro hnil
        rw [hnil] at h
        simp at h
      rw [fix_schema_spec, if_pos (by rw [hc] at h ⊢; exact h)]
      have hsplit : List.intercalate ['.'] (s.data.splitOn '.') = s.data :=
        List.intercalate_splitOn s.data '.'
      conv_lhs => rw [hsplit.symm]
      rw [hc]
      simp only [List.headI, List.tail]
      exact intercalate_cons_ne_nil '.' c0 htl

/-- C8 witness: the characterisation applied to the concrete two-chunk
string `a.b`, on which the function is the identity. -/
theorem C8_witness : MssqlDialect._fix_GIS_schema_issue "a.b" = "a.b" :=
  (C8_fix_gis_schema "a.b").1.1 (by decide)

/-- C9: compiling `ST_GeomFromWKB`/`ST_GeomFromEWKB` mutates the input
element: a leading `memoryview` value is replaced in place by its bytes
under mssql and by its hexadecimal string under oracle, so the element
is not left unchanged. -/
theorem C9_geomfromwkb_mutation (ident : String) (t : GeomType) (bs : List Nat)
    (rest : List Clause) (compiler : Compiler) :
    ((MssqlDialect.STGeomFromWKB ⟨ident, ⟨Value.memview bs⟩ :: rest, t⟩ compiler).map
        (fun r => r.1.clauses.map Clause.value)) =
      some (Value.pybytes bs :: rest.map Clause.value) ∧
    ((OracleDialect._compile_GeomFromWKB_Oracle
          ⟨ident, ⟨Value.memview bs⟩ :: rest, t⟩ compiler).map
        (fun r => r.1.clauses.map Clause.value)) =
      some (Value.pystr (bytesHex bs) :: rest.map Clause.value) ∧
    Value.pybytes bs ≠ Value.memview bs ∧
    Value.pystr (bytesHex bs) ≠ Value.memview bs := by
  refine ⟨?_, ?_, ?_, ?_⟩
  · simp only [MssqlDialect.STGeomFromWKB, MssqlDialect.tobytes_clause]
    split <;> simp
  · simp only [OracleDialect._compile_GeomFromWKB_Oracle, OracleDialect.tohex_clause]
    split <;> simp
  · intro h
    exact Value.noConfusion h
  · intro h
    exact Value.noConfusion h

/-- Looking a name up in the registry built by `register_oracle_mapping`
returns the compilation function of the first mapping entry bearing that
name. -/
theorem lookup_register_oracle (mapping : List (String × String)) (name fn : String)
    (h : mapping.lookup name = some fn) :
    (OracleDialect.register_oracle_mapping mapping).lookup name =
      some (fun element compiler =>
        fn ++ "(" ++ compiler.processList element.clauses ++ ")") := by
  induction mapping with
  | nil => simp at h
  | cons p t ih =>
    obtain ⟨a, b⟩ := p
    simp only [List.lookup_cons] at h
    simp only [OracleDialect.register_oracle_mapping, List.map_cons,
      OracleDialect._compiles_oracle, List.lookup_cons]
    split at h
    · rename_i heq
      have hb : b = fn := by simpa using h
      subst hb
      simp [heq]
    · simp only [OracleDialect.register_oracle_mapping,
        OracleDialect._compiles_oracle] at ih
      exact ih h

/-- C5: every entry `(name, oracle_fn)` of a mapping given to
`register_oracle_mapping` compiles the function of that name to
`oracle_fn(<compiled clauses>)`; with the default mapping, `ST_AsBinary`
and `ST_AsEWKB` compile through `SDO_UTIL.TO_WKBGEOMETRY` and
`ST_AsGeoJSON` through `SDO_UTIL.TO_GEOJSON`. -/
theorem C5_register_oracle_mapping (mapping : List (String × String)) (name fn : String)
    (element : FunctionElement) (compiler : Compiler)
    (h : mapping.lookup name = some fn) :
    ((OracleDialect.register_oracle_mapping mapping).lookup name).map
        (fun g => g element compiler) =
      some (fn ++ "(" ++ compiler.processList element.clauses ++ ")") ∧
    ((OracleDialect.oracle_compilation_registry.lookup "ST_AsBinary").map
        (fun g => g element compiler)) =
      some ("SDO_UTIL.TO_WKBGEOMETRY" ++ "(" ++ compiler.processList element.clauses ++ ")") ∧
    ((OracleDialect.oracle_compilation_registry.lookup "ST_AsEWKB").map
        (fun g => g element compiler)) =
      some ("SDO_UTIL.TO_WKBGEOMETRY" ++ "(" ++ compiler.processList element.clauses ++ ")") ∧
    ((OracleDialect.oracle_compilation_registry.lookup "ST_AsGeoJSON").map
        (fun g => g element compiler)) =
      some ("SDO_UTIL.TO_GEOJSON" ++ "(" ++ compiler.processList element.clauses ++ ")") := by
  refine ⟨?_, rfl, rfl, rfl⟩
  rw [lookup_register_oracle mapping name fn h]
  rfl

/-- C5 witness: a one-entry mapping applied to a concrete element and a
concrete compiler. -/
theorem C5_witness :
    ((OracleDialect.register_oracle_mapping [("ST_X", "SDO_GEOM.SDO_X")]).lookup "ST_X").map
        (fun g => g ⟨"ST_X", [], ⟨0⟩⟩ ⟨fun _ => "", fun _ => "pt"⟩) =
      some ("SDO_GEOM.SDO_X" ++ "(" ++ "pt" ++ ")") :=
  (C5_register_oracle_mapping [("ST_X", "SDO_GEOM.SDO_X")] "ST_X" "SDO_GEOM.SDO_X"
    ⟨"ST_X", [], ⟨0⟩⟩ ⟨fun _ => "", fun _ => "pt"⟩ rfl).1

/-- C7: `reflect_geometry_column` of both dialects returns `None` and
modifies nothing unless the column type is a Geometry whose SRID is
`-1`; in that case it executes exactly one SELECT and its only
modification is setting the SRID to the first column of the returned
row, the column info being left unchanged when no row is returned. -/
theorem C7_reflect_geometry_column (insp : Inspector) (table : Table) (ci : ColumnInfo) :
    (ci.type ≠ some (ColType.geometry (-1)) →
       MssqlDialect.reflect_geometry_column insp table ci = (ci, [], none) ∧
       OracleDialect.reflect_geometry_column insp table ci = (ci, [], none)) ∧
    (ci.type = some (ColType.geometry (-1)) →
       ((insp.fetchone (MssqlDialect.srid_select table ci) = none →
           MssqlDialect.reflect_geometry_column insp table ci =
             (ci, [MssqlDialect.srid_select table ci], none)) ∧
        (∀ v, insp.fetchone (MssqlDialect.srid_select table ci) = some v →
           MssqlDialect.reflect_geometry_column insp table ci =
             ({ ci with type := some (ColType.geometry v) },
              [MssqlDialect.srid_select table ci], none)) ∧
        (insp.fetchone (OracleDialect.srid_select table ci) = none →
           OracleDialect.reflect_geometry_column insp table ci =
             (ci, [OracleDialect.srid_select table ci], none)) ∧
        (∀ v, insp.fetchone (OracleDialect.srid_select table ci) = some v →
           OracleDialect.reflect_geometry_column insp table ci =
             ({ ci with type := some (ColType.geometry v) },
              [OracleDialect.srid_select table ci], none)))) := by
  obtain ⟨ty, nm⟩ := ci
  constructor
  · intro hne
    cases ty with
    | none => exact ⟨rfl, rfl⟩
    | some ct =>
      cases ct with
      | other => exact ⟨rfl, rfl⟩
      | geometry srid =>
        have hs : ¬ srid = -1 := by
          intro hminus
          exact hne (by rw [hminus])
        constructor
        · simp [MssqlDialect.reflect_geometry_column, hs]
        · simp [OracleDialect.reflect_geometry_column, hs]
  · intro heq
    have hty : ty = some (ColType.geometry (-1)) := heq
    subst hty
    refine ⟨?_, ?_, ?_, ?_⟩
    · intro hf
      simp [MssqlDialect.reflect_geometry_column, hf]
    · intro v hf
      simp [MssqlDialect.reflect_geometry_column, hf]
    · intro hf
      simp [OracleDialect.reflect_geometry_column, hf]
    · intro v hf
      simp [OracleDialect.reflect_geometry_column, hf]

/-- C7 witness: a concrete reflection where the SRID `-1` is replaced by
the value `4326` fetched by the single SELECT. -/
theorem C7_witness :
    MssqlDialect.reflect_geometry_column ⟨fun _ => some 4326⟩ ⟨"dbo", "places"⟩
        ⟨some (ColType.geometry (-1)), "geom"⟩ =
      (⟨some (ColType.geometry 4326), "geom"⟩,
       [MssqlDialect.srid_select ⟨"dbo", "places"⟩ ⟨some (ColType.geometry (-1)), "geom"⟩],
       none) := by
  have h := C7_reflect_geometry_column ⟨fun _ => some 4326⟩ ⟨"dbo", "places"⟩
    ⟨some (ColType.geometry (-1)), "geom"⟩
  exact (h.2 rfl).2.1 4326 rfl

/-- `beginsWith s sub` holds exactly when `sub` is an initial segment of
`s`. -/
theorem beginsWith_iff (s sub : List Char) :
    beginsWith s sub = true ↔ ∃ r, s = sub ++ r := by
  induction sub generalizing s with
  | nil => simp [beginsWith]
  | cons b t ih =>
    cases s with
    | nil => simp [beginsWith]
    | cons a s => simp [beginsWith, ih]

/-- `pyFind` returns `-1` or a genuine (nonnegative) index. -/
theorem pyFind_eq_or_nonneg (sub s : List Char) :
    pyFind s sub = -1 ∨ 0 ≤ pyFind s sub := by
  induction s with
  | nil =>
    rw [pyFind]
    by_cases hb : beginsWith [] sub
    · rw [if_pos hb]
      right
      exact le_refl 0
    · rw [if_neg hb]
      left
      rfl
  | cons a t ih =>
    rw [pyFind]
    by_cases hb : beginsWith (a :: t) sub
    · rw [if_pos hb]
      right
      exact le_refl 0
    · rw [if_neg hb]
      rcases ih with h | h
      · left
        simp [h]
      · have hne : ¬ pyFind t sub = -1 := by omega
        right
        simp only [hne, if_false]
        omega

/-- `pyFind s sub ≠ -1` holds exactly when `sub` occurs as a contiguous
segment of `s`. -/
theorem pyFind_ne_iff (s sub : List Char) :
    pyFind s sub ≠ -1 ↔ ∃ pre post, s = pre ++ sub ++ post := by
  induction s with
  | nil =>
    by_cases hb : beginsWith [] sub
    · have hsub : sub = [] := by
        obtain ⟨r, hr⟩ := (beginsWith_iff [] sub).mp hb
        cases sub with
        | nil => rfl
        | cons x xs => simp at hr
      subst hsub
      have hv : pyFind [] ([] : List Char) = 0 := by
        rw [pyFind, if_pos hb]
      rw [hv]
      constructor
      · intro _
        exact ⟨[], [], rfl⟩
      · intro _
        omega
    · have hsubne : sub ≠ [] := by
        intro h0
        subst h0
        exact hb rfl
      have hv : pyFind [] sub = -1 := by
        rw [pyFind, if_neg hb]
      rw [hv]
      constructor
      · intro hcon
        exact absurd rfl hcon
      · rintro ⟨pre, post, hp⟩
        exfalso
        apply hsubne
        have h2 := hp.symm
        simp only [List.append_assoc, List.append_eq_nil] at h2
        exact h2.2.1
  | cons a t ih =>
    by_cases hb : beginsWith (a :: t) sub
    · have hv : pyFind (a :: t) sub = 0 := by
        rw [pyFind, if_pos hb]
      rw [hv]
      constructor
      · intro _
        obtain ⟨r, hr⟩ := (beginsWith_iff (a :: t) sub).mp hb
        exact ⟨[], r, by simpa using hr⟩
      · intro _
        omega
    · by_cases hr : pyFind t sub = -1
      · have hv : pyFind (a :: t) sub = -1 := by
          rw [pyFind, if_neg hb]
          simp [hr]
        rw [hv]
        constructor
        · intro hcon
          exact absurd rfl hcon
        · rintro ⟨pre, post, hp⟩
          exfalso
          cases pre with
          | nil =>
            exact hb ((beginsWith_iff (a :: t) sub).mpr ⟨post, by simpa using hp⟩)
          | cons p pre =>
            have h2 := hp
            simp only [List.cons_append, List.cons.injEq] at h2
            exact (ih.mpr ⟨pre, post, h2.2⟩) hr
      · have h0 : 0 ≤ pyFind t sub := by
          rcases pyFind_eq_or_nonneg sub t with h | h
          · exact absurd h hr
          · exact h
        have hv : pyFind (a :: t) sub = pyFind t sub + 1 := by
          rw [pyFind, if_neg hb]
          simp [hr]
        rw [hv]
        constructor
        · intro _
          obtain ⟨pre, post, hp⟩ := ih.mp hr
          exact ⟨a :: pre, post, by simp [hp]⟩
        · intro _
          omega

/-- C10: `load_oracle_spatial_driver` raises `RuntimeError` if and only
if the banner row returned by the version query contains the substring
`Express`; when it does not raise, `load_oracle_spatial` completes with
no further effect because `init_oracle_spatial` is a no-op returning
`None`. -/
theorem C10_load_oracle_spatial (banner : String) :
    (OracleDialect.load_oracle_spatial_driver banner =
        Except.error "The Express edition of the Oracle database is not supported." ↔
      ∃ pre post, banner.data = pre ++ "Express".data ++ post) ∧
    ((¬ ∃ pre post, banner.data = pre ++ "Express".data ++ post) →
      OracleDialect.load_oracle_spatial banner = Except.ok none) := by
  have hiff := pyFind_ne_iff banner.data "Express".data
  constructor
  · constructor
    · intro he
      apply hiff.mp
      intro hne
      unfold OracleDialect.load_oracle_spatial_driver at he
      rw [if_neg (by simp [hne])] at he
      exact Except.noConfusion he
    · intro hc
      unfold OracleDialect.load_oracle_spatial_driver
      rw [if_pos (hiff.mpr hc)]
  · intro hnc
    have hne : ¬ pyFind banner.data "Express".data ≠ -1 := fun hh => hnc (hiff.mp hh)
    unfold OracleDialect.load_oracle_spatial OracleDialect.load_oracle_spatial_driver
    rw [if_neg hne]
    rfl

/-- C10 witness: a banner without the substring `Express` loads the
extension successfully, performing nothing further. -/
theorem C10_witness :
    OracleDialect.load_oracle_spatial "Oracle Database 19c" = Except.ok none := by
  have h := C10_load_oracle_spatial "Oracle Database 19c"
  apply h.2
  intro hc
  have he := h.1.mpr hc
  have hok : OracleDialect.load_oracle_spatial_driver "Oracle Database 19c" =
      Except.ok () := by rfl
  rw [hok] at he
  exact Except.noConfusion he
